import Mathlib

/-!
Tilt-and-fire arcade game: the game loop of `src/App.js`.

A shallow embedding of the state held by the `App` component and of the five
callbacks that change it (the accelerometer listener, the spawn timer, the
update timer, `handlePress` and `restartGame`), followed by the properties of
the update loop.

Modelling conventions.

* JavaScript numbers are modelled as rationals `ℚ`: every coordinate is built
  from viewport dimensions and sensor samples with `+`, `-`, `*`, `/ 2`,
  `Math.max` and `Math.min`, and every test of the code is an order comparison.
  Rounding and the non-finite values of IEEE doubles are outside the model.
* The component keeps each collection twice, as React state (`bullets`,
  `enemies`, `playerX`) and as a ref (`bulletsRef`, `enemiesRef`,
  `playerXRef`). Every write in the source updates both copies with the same
  value, and the three synchronising effects copy state into the ref after each
  render, so the model keeps one copy.
* `Date.now().toString() + Math.random()` (a fresh identifier) and
  `Math.random()` (the spawn abscissa) are parameters of the operation that
  uses them.
* `screenWidth` and `screenHeight` are parameters, read once at start-up.
* `spawn` and `tick` are the two callbacks given to `setInterval`, exactly as
  written: neither tests `gameOver`. Whether the intervals exist is decided by
  the effects around them and is modelled separately, in `Mounted`.
-/

namespace TiltFire

/-! ## Constants (lines 9-13) -/

/-- Width of the cannon. -/
def PLAYER_WIDTH : ℚ := 60

/-- Height of the cannon. -/
def PLAYER_HEIGHT : ℚ := 30

/-- Width of a fireball. -/
def BULLET_WIDTH : ℚ := 12

/-- Height of a fireball. -/
def BULLET_HEIGHT : ℚ := 25

/-- Side of a meteor. -/
def ENEMY_SIZE : ℚ := 45

/-! ## Data model -/

/-- A fireball or a meteor: the object literal with fields id, x and y. -/
structure Entity where
  id : String
  x : ℚ
  y : ℚ
  deriving DecidableEq, Repr

/-- The five pieces of React state of the component (lines 16-20). -/
structure Game where
  playerX : ℚ
  bullets : List Entity
  enemies : List Entity
  score : Nat
  gameOver : Bool
  deriving DecidableEq, Repr

/-- The values passed to the five `useState` calls (lines 16-20). -/
def initialGame (screenWidth : ℚ) : Game :=
  { playerX := (screenWidth - PLAYER_WIDTH) / 2
    bullets := []
    enemies := []
    score := 0
    gameOver := false }

/-! ## Accelerometer listener (lines 41-49) -/

/-- The listener body: nothing when the game is over, otherwise the clamped move. -/
def onTilt (screenWidth : ℚ) (x : ℚ) (s : Game) : Game :=
  if s.gameOver then s
  else
    let move := x * 20
    let newX := s.playerX + move
    { s with playerX := max 0 (min newX (screenWidth - PLAYER_WIDTH)) }

/-! ## Spawn timer (lines 54-69) -/

/-- The callback given to `setInterval` at lines 57-66, which has no test of
`gameOver`; `id` is the fresh identifier and `r` the value of `Math.random()`. -/
def spawn (screenWidth : ℚ) (id : String) (r : ℚ) (s : Game) : Game :=
  let enemy : Entity := { id := id, x := r * (screenWidth - ENEMY_SIZE), y := -ENEMY_SIZE }
  { s with enemies := s.enemies ++ [enemy] }

/-! ## Update timer (lines 72-160) -/

/-- Fireballs moved up by 12, those that left the top dropped (lines 80-82). -/
def movedBullets (prevBullets : List Entity) : List Entity :=
  (prevBullets.map fun b => { b with y := b.y - 12 }).filter fun b => b.y > -BULLET_HEIGHT

/-- Meteors moved down by 6 (line 85). -/
def movedEnemies (prevEnemies : List Entity) : List Entity :=
  prevEnemies.map fun e => { e with y := e.y + 6 }

/-- The ground test of line 89. -/
def reachesGround (screenHeight : ℚ) (e : Entity) : Bool :=
  e.y + ENEMY_SIZE ≥ screenHeight - 20

/-- The off-screen filter of lines 100-102. -/
def filteredEnemies (screenHeight : ℚ) (moved : List Entity) : List Entity :=
  moved.filter fun e => e.y < screenHeight + ENEMY_SIZE

/-- The bounding-box test of lines 115-119. -/
def collide (b e : Entity) : Bool :=
  b.x < e.x + ENEMY_SIZE && b.x + BULLET_WIDTH > e.x &&
    b.y < e.y + ENEMY_SIZE && b.y + BULLET_HEIGHT > e.y

/-- The inner loop of lines 112-127: the index at which the loop breaks, if any. -/
def findHit (b : Entity) : List Entity → Option Nat
  | [] => none
  | e :: rest => if collide b e then some 0 else (findHit b rest).map (· + 1)

/-- The three locals of the collision pass (lines 105-107). -/
structure Scan where
  remainingBullets : List Entity
  remainingEnemies : List Entity
  hits : Nat
  deriving DecidableEq, Repr

/-- One iteration of the outer loop (lines 109-130): on a hit the meteor at the
found index is spliced out and `hits` grows, otherwise the fireball is pushed. -/
def bulletStep (acc : Scan) (b : Entity) : Scan :=
  match findHit b acc.remainingEnemies with
  | some i =>
      { acc with hits := acc.hits + 1, remainingEnemies := acc.remainingEnemies.eraseIdx i }
  | none => { acc with remainingBullets := acc.remainingBullets ++ [b] }

/-- The whole collision pass (lines 105-130). -/
def collisions (moved filtered : List Entity) : Scan :=
  moved.foldl bulletStep { remainingBullets := [], remainingEnemies := filtered, hits := 0 }

/-- The player test of lines 133-139, with `playerTop` inlined. -/
def playerCollide (screenHeight playerX : ℚ) (e : Entity) : Bool :=
  let playerTop := screenHeight - PLAYER_HEIGHT - 25
  e.x < playerX + PLAYER_WIDTH && e.x + ENEMY_SIZE > playerX && e.y + ENEMY_SIZE > playerTop

/-- The five statements before each early `return` (lines 90-94 and 142-146). -/
def endGame (s : Game) : Game :=
  { s with gameOver := true, bullets := [], enemies := [] }

/-- The callback given to `setInterval` at lines 75-157, which has no test of
`gameOver` on entry. -/
def tick (screenHeight : ℚ) (s : Game) : Game :=
  let mb := movedBullets s.bullets
  let me := movedEnemies s.enemies
  if me.any (reachesGround screenHeight) then endGame s
  else
    let r := collisions mb (filteredEnemies screenHeight me)
    if r.remainingEnemies.any (playerCollide screenHeight s.playerX) then endGame s
    else
      { s with
        bullets := r.remainingBullets
        enemies := r.remainingEnemies
        score := if r.hits > 0 then s.score + r.hits else s.score }

/-- The callback with lines 100-102 deleted: the collision pass reads the moved
meteors directly. -/
def tickNoFilter (screenHeight : ℚ) (s : Game) : Game :=
  let mb := movedBullets s.bullets
  let me := movedEnemies s.enemies
  if me.any (reachesGround screenHeight) then endGame s
  else
    let r := collisions mb me
    if r.remainingEnemies.any (playerCollide screenHeight s.playerX) then endGame s
    else
      { s with
        bullets := r.remainingBullets
        enemies := r.remainingEnemies
        score := if r.hits > 0 then s.score + r.hits else s.score }

/-! ## Touch handler (lines 163-184) -/

/-- The body of `restartGame` (lines 176-184): five setters, one per piece of state. -/
def restartGame (screenWidth : ℚ) (s : Game) : Game :=
  { s with
    bullets := []
    enemies := []
    score := 0
    gameOver := false
    playerX := (screenWidth - PLAYER_WIDTH) / 2 }

/-- The body of `handlePress` (lines 163-174); `id` is the fresh identifier. -/
def handlePress (screenWidth screenHeight : ℚ) (id : String) (s : Game) : Game :=
  if s.gameOver then restartGame screenWidth s
  else
    let bullet : Entity :=
      { id := id
        x := s.playerX + PLAYER_WIDTH / 2 - BULLET_WIDTH / 2
        y := screenHeight - PLAYER_HEIGHT - 40 }
    { s with bullets := s.bullets ++ [bullet] }

/-! ## Sessions -/

/-- What can happen to a session: a sensor sample, a spawn period, an update
period, a tap. -/
inductive Event where
  | tilt (x : ℚ)
  | spawn (id : String) (r : ℚ)
  | tick
  | tap (id : String)
  deriving DecidableEq, Repr

/-- The state after one event. The two timer callbacks are applied to whatever
state they find, so the sessions of `run` include every session the mounted
component can go through. -/
def step (screenWidth screenHeight : ℚ) (s : Game) : Event → Game
  | Event.tilt x => onTilt screenWidth x s
  | Event.spawn id r => spawn screenWidth id r s
  | Event.tick => tick screenHeight s
  | Event.tap id => handlePress screenWidth screenHeight id s

/-- The state after a sequence of events, starting from the initial state. -/
def run (screenWidth screenHeight : ℚ) (events : List Event) : Game :=
  events.foldl (step screenWidth screenHeight) (initialGame screenWidth)

/-! ## The effects that own the timers (lines 54-69 and 72-160) -/

/-- The component together with what its effects last installed. Both timer
effects have the shape `if (gameOver) return; const t = setInterval(...);
return () => clearInterval(t)` with dependency list `[gameOver]`, so the two
intervals exist together or not at all. -/
structure Mounted where
  game : Game
  intervals : Bool
  deriving DecidableEq, Repr

/-- The component after mounting: the initial state, and the effects have run
with `gameOver` false, so both intervals exist. -/
def mount (screenWidth : ℚ) : Mounted :=
  { game := initialGame screenWidth, intervals := true }

/-- A run of the two timer effects after a render that changed `gameOver`: the
cleanups clear the intervals and the bodies create new ones unless the guard of
lines 55 and 73 returns first. -/
def runEffects (m : Mounted) : Mounted :=
  { m with intervals := !m.game.gameOver }

/-- A period of the spawn interval: its callback runs if the interval exists. -/
def spawnPeriod (screenWidth : ℚ) (id : String) (r : ℚ) (m : Mounted) : Mounted :=
  if m.intervals then { m with game := spawn screenWidth id r m.game } else m

/-- A period of the update interval: its callback runs if the interval exists. -/
def tickPeriod (screenHeight : ℚ) (m : Mounted) : Mounted :=
  if m.intervals then { m with game := tick screenHeight m.game } else m

/-! ## Greedy first match, as the specification words it -/

/-- The overlap of a projectile and a hazard, sizes 12 by 25 and 45 by 45. -/
def overlaps (proj haz : Entity) : Prop :=
  proj.x < haz.x + 45 ∧ proj.x + 12 > haz.x ∧ proj.y < haz.y + 45 ∧ proj.y + 25 > haz.y

instance (proj haz : Entity) : Decidable (overlaps proj haz) := by
  unfold overlaps; infer_instance

/-- The working list without its earliest hazard satisfying `p`; `none` when no
hazard satisfies it. -/
def removeEarliest (p : Entity → Bool) : List Entity → Option (List Entity)
  | [] => none
  | haz :: rest => if p haz then some rest else (removeEarliest p rest).map (haz :: ·)

/-- Projectiles taken in list order against a working list of hazards: a
projectile that overlaps some hazard of the working list is consumed together
with the earliest such hazard, and counted; any other projectile survives. -/
def greedyFirstMatch : List Entity → List Entity → Scan
  | [], working => { remainingBullets := [], remainingEnemies := working, hits := 0 }
  | proj :: rest, working =>
    match removeEarliest (fun haz => decide (overlaps proj haz)) working with
    | some working2 =>
        let r := greedyFirstMatch rest working2
        { remainingBullets := r.remainingBullets
          remainingEnemies := r.remainingEnemies
          hits := r.hits + 1 }
    | none =>
        let r := greedyFirstMatch rest working
        { remainingBullets := proj :: r.remainingBullets
          remainingEnemies := r.remainingEnemies
          hits := r.hits }

/-- The player test as the specification words it: horizontal spans overlap and
the bottom edge of the hazard is past the line
`viewport_height - player_height - margin`. -/
def strikesPlayer (viewportHeight margin playerX : ℚ) (haz : Entity) : Prop :=
  haz.x < playerX + 60 ∧ haz.x + 45 > playerX ∧ haz.y + 45 > viewportHeight - 30 - margin

instance (viewportHeight margin playerX : ℚ) (haz : Entity) :
    Decidable (strikesPlayer viewportHeight margin playerX haz) := by
  unfold strikesPlayer; infer_instance

/-- The margin of the ground check, `viewport_height - ground_margin` (line 89). -/
def groundMargin : ℚ := 20

/-! ## Sample sessions -/

/-- A session with one fireball in flight and one meteor six pixels short of
the ground line of an 800-pixel-high viewport. -/
def groundSample : Game :=
  { playerX := 170
    bullets := [{ id := "f1", x := 10, y := 400 }]
    enemies := [{ id := "m1", x := 300, y := 730 }]
    score := 3
    gameOver := false }

/-- A session whose only meteor, once moved, has its bottom edge at 748 in an
800-pixel-high viewport, above the cannon at 100. -/
def strikeSample : Game :=
  { playerX := 100
    bullets := []
    enemies := [{ id := "m1", x := 100, y := 697 }]
    score := 0
    gameOver := false }

/-- A finished session that still shows a score. -/
def finishedSample : Game :=
  { playerX := 12
    bullets := []
    enemies := []
    score := 7
    gameOver := true }

/-- A running session with the cannon at 50 and one fireball in flight. -/
def firingSample : Game :=
  { playerX := 50
    bullets := [{ id := "f1", x := 74, y := 500 }]
    enemies := [{ id := "m1", x := 200, y := 100 }]
    score := 2
    gameOver := false }

/-- A running session in which the fireball, once moved, is at (100, 100) and
the meteor, once moved, at (100, 110). -/
def hitSample : Game :=
  { playerX := 300
    bullets := [{ id := "f1", x := 100, y := 112 }]
    enemies := [{ id := "m1", x := 100, y := 104 }]
    score := 0
    gameOver := false }

/-- A running session with three fireballs and three meteors, of which only
the first fireball and the second meteor meet in the next update period. -/
def crowdSample : Game :=
  { playerX := 10
    bullets := [{ id := "f1", x := 100, y := 112 }, { id := "f2", x := 300, y := 400 },
      { id := "f3", x := 20, y := 50 }]
    enemies := [{ id := "m1", x := 200, y := 0 }, { id := "m2", x := 100, y := 104 },
      { id := "m3", x := 350, y := 200 }]
    score := 4
    gameOver := false }

/-- The session that the update period which ends a game leaves behind on a
400-pixel-wide viewport when nothing was scored. -/
def endedSample : Game :=
  { playerX := 170
    bullets := []
    enemies := []
    score := 0
    gameOver := true }

/-- The component holding `endedSample` before the effects have run again: both
intervals still exist. -/
def windowSample : Mounted :=
  { game := endedSample, intervals := true }

/-! ## Lemmas on the collision pass -/

theorem collide_iff_overlaps (b e : Entity) : collide b e = true ↔ overlaps b e := by
  simp [collide, overlaps, ENEMY_SIZE, BULLET_WIDTH, BULLET_HEIGHT, and_assoc]

theorem findHit_eq_none {b : Entity} {es : List Entity} :
    findHit b es = none ↔ ∀ e ∈ es, collide b e = false := by
  induction es with
  | nil => simp [findHit]
  | cons e rest ih =>
    by_cases hc : collide b e = true
    · simp [findHit, hc]
    · simp [findHit, hc, ih]

theorem findHit_eq_some {b : Entity} {es : List Entity} {i : Nat} (h : findHit b es = some i) :
    ∃ l₁ e l₂, es = l₁ ++ e :: l₂ ∧ l₁.length = i ∧ (∀ x ∈ l₁, collide b x = false) ∧
      collide b e = true ∧ es.eraseIdx i = l₁ ++ l₂ := by
  induction es generalizing i with
  | nil => simp [findHit] at h
  | cons e rest ih =>
    by_cases hc : collide b e = true
    · simp [findHit, hc] at h
      subst h
      exact ⟨[], e, rest, rfl, rfl, by simp, hc, rfl⟩
    · simp [findHit, hc] at h
      obtain ⟨j, hj, rfl⟩ := h
      obtain ⟨l₁, e2, l₂, h1, h2, h3, h4, h5⟩ := ih hj
      refine ⟨e :: l₁, e2, l₂, by simp [h1], by simp [h2], ?_, h4, by simp [h5]⟩
      intro x hx
      rcases List.mem_cons.1 hx with rfl | hx
      · simpa using hc
      · exact h3 x hx

theorem removeEarliest_eq_findHit (b : Entity) (es : List Entity) :
    removeEarliest (fun haz => decide (overlaps b haz)) es =
      (findHit b es).map fun i => es.eraseIdx i := by
  induction es with
  | nil => simp [removeEarliest, findHit]
  | cons e rest ih =>
    by_cases hc : collide b e = true
    · have ho : overlaps b e := (collide_iff_overlaps b e).1 hc
      simp [removeEarliest, findHit, hc, ho]
    · have ho : ¬ overlaps b e := fun h => hc ((collide_iff_overlaps b e).2 h)
      simp [removeEarliest, findHit, hc, ho, ih, Function.comp_def]

theorem foldl_bulletStep (mb : List Entity) (acc : Scan) :
    mb.foldl bulletStep acc =
      { remainingBullets := acc.remainingBullets ++ (greedyFirstMatch mb acc.remainingEnemies).remainingBullets
        remainingEnemies := (greedyFirstMatch mb acc.remainingEnemies).remainingEnemies
        hits := acc.hits + (greedyFirstMatch mb acc.remainingEnemies).hits } := by
  induction mb generalizing acc with
  | nil => simp [greedyFirstMatch]
  | cons b rest ih =>
    rw [List.foldl_cons, ih]
    simp only [greedyFirstMatch, removeEarliest_eq_findHit, bulletStep]
    cases hf : findHit b acc.remainingEnemies with
    | none => simp
    | some i => simp [Nat.add_assoc, Nat.add_comm]

theorem collisions_eq (mb fe : List Entity) : collisions mb fe = greedyFirstMatch mb fe := by
  simp [collisions, foldl_bulletStep]

theorem removeEarliest_sublist {p : Entity → Bool} {es es2 : List Entity}
    (h : removeEarliest p es = some es2) : es2.Sublist es ∧ es.length = es2.length + 1 := by
  induction es generalizing es2 with
  | nil => simp [removeEarliest] at h
  | cons e rest ih =>
    by_cases hp : p e = true
    · simp [removeEarliest, hp] at h
      subst h
      exact ⟨List.sublist_cons_self _ _, rfl⟩
    · simp [removeEarliest, hp] at h
      obtain ⟨r, hr, rfl⟩ := h
      obtain ⟨h1, h2⟩ := ih hr
      exact ⟨h1.cons₂ e, by simp [h2]⟩

theorem greedyFirstMatch_sound (mb fe : List Entity) :
    (greedyFirstMatch mb fe).remainingBullets.Sublist mb ∧
    (greedyFirstMatch mb fe).remainingEnemies.Sublist fe ∧
    mb.length = (greedyFirstMatch mb fe).remainingBullets.length + (greedyFirstMatch mb fe).hits ∧
    fe.length = (greedyFirstMatch mb fe).remainingEnemies.length + (greedyFirstMatch mb fe).hits := by
  induction mb generalizing fe with
  | nil => simp [greedyFirstMatch]
  | cons b rest ih =>
    simp only [greedyFirstMatch]
    cases hr : removeEarliest (fun haz => decide (overlaps b haz)) fe with
    | none =>
      obtain ⟨h1, h2, h3, h4⟩ := ih fe
      refine ⟨h1.cons₂ b, h2, ?_, h4⟩
      simp only [List.length_cons]; omega
    | some w =>
      obtain ⟨h1, h2, h3, h4⟩ := ih w
      obtain ⟨s1, s2⟩ := removeEarliest_sublist hr
      refine ⟨h1.cons b, h2.trans s1, ?_, ?_⟩
      · simp only [List.length_cons]; omega
      · simp only; omega

/-! ## Lemmas on the operations -/

theorem tick_playerX (screenHeight : ℚ) (s : Game) : (tick screenHeight s).playerX = s.playerX := by
  unfold tick endGame
  dsimp only
  split_ifs <;> rfl

theorem clamp_bounds (screenWidth v : ℚ) (hw : PLAYER_WIDTH ≤ screenWidth) :
    0 ≤ max 0 (min v (screenWidth - PLAYER_WIDTH)) ∧
      max 0 (min v (screenWidth - PLAYER_WIDTH)) ≤ screenWidth - PLAYER_WIDTH := by
  refine ⟨le_max_left _ _, max_le (by linarith) (min_le_right _ _)⟩

theorem centre_bounds (screenWidth : ℚ) (hw : PLAYER_WIDTH ≤ screenWidth) :
    0 ≤ (screenWidth - PLAYER_WIDTH) / 2 ∧
      (screenWidth - PLAYER_WIDTH) / 2 ≤ screenWidth - PLAYER_WIDTH := by
  constructor <;> linarith

theorem step_bounds (screenWidth screenHeight : ℚ) (hw : PLAYER_WIDTH ≤ screenWidth)
    (s : Game) (ev : Event)
    (hs : 0 ≤ s.playerX ∧ s.playerX ≤ screenWidth - PLAYER_WIDTH) :
    0 ≤ (step screenWidth screenHeight s ev).playerX ∧
      (step screenWidth screenHeight s ev).playerX ≤ screenWidth - PLAYER_WIDTH := by
  cases ev with
  | tilt x =>
    unfold step onTilt
    split_ifs
    · exact hs
    · exact clamp_bounds screenWidth _ hw
  | spawn id r =>
    exact hs
  | tick =>
    unfold step
    rw [tick_playerX]
    exact hs
  | tap id =>
    unfold step handlePress restartGame
    split_ifs
    · exact centre_bounds screenWidth hw
    · exact hs

theorem foldl_step_bounds (screenWidth screenHeight : ℚ) (hw : PLAYER_WIDTH ≤ screenWidth)
    (events : List Event) (s : Game)
    (hs : 0 ≤ s.playerX ∧ s.playerX ≤ screenWidth - PLAYER_WIDTH) :
    0 ≤ (events.foldl (step screenWidth screenHeight) s).playerX ∧
      (events.foldl (step screenWidth screenHeight) s).playerX ≤ screenWidth - PLAYER_WIDTH := by
  induction events generalizing s with
  | nil => exact hs
  | cons ev rest ih => exact ih _ (step_bounds screenWidth screenHeight hw s ev hs)

theorem any_reachesGround_iff (screenHeight : ℚ) (enemies : List Entity) :
    (movedEnemies enemies).any (reachesGround screenHeight) = true ↔
      ∃ e ∈ enemies, e.y + 6 + 45 ≥ screenHeight - 20 := by
  simp [movedEnemies, reachesGround, ENEMY_SIZE, List.any_eq_true]

theorem movedBullets_ids (bullets : List Entity) :
    ((movedBullets bullets).map Entity.id).Sublist (bullets.map Entity.id) := by
  have h := ((List.filter_sublist (p := fun b : Entity => decide (b.y > -BULLET_HEIGHT))
    (bullets.map fun b => { b with y := b.y - 12 })).map Entity.id)
  simpa [movedBullets, Function.comp_def] using h

theorem movedEnemies_ids (enemies : List Entity) :
    (movedEnemies enemies).map Entity.id = enemies.map Entity.id := by
  simp [movedEnemies, Function.comp_def]

theorem filteredEnemies_of_not_ground (screenHeight : ℚ) (moved : List Entity)
    (hg : moved.any (reachesGround screenHeight) = false) :
    (∀ e ∈ moved, e.y + 45 < screenHeight - 20 ∧ e.y < screenHeight + 45) ∧
      filteredEnemies screenHeight moved = moved := by
  have hall : ∀ e ∈ moved, e.y + 45 < screenHeight - 20 ∧ e.y < screenHeight + 45 := by
    intro e he
    have h1 : reachesGround screenHeight e = false := by
      by_contra hc
      have : moved.any (reachesGround screenHeight) = true :=
        List.any_eq_true.2 ⟨e, he, by simpa using hc⟩
      rw [hg] at this
      cases this
    have h2 : e.y + 45 < screenHeight - 20 := by
      simp only [reachesGround, ENEMY_SIZE, ge_iff_le, decide_eq_false_iff_not, not_le] at h1
      exact h1
    exact ⟨h2, by linarith⟩
  refine ⟨hall, ?_⟩
  unfold filteredEnemies
  rw [List.filter_eq_self]
  intro e he
  simpa [ENEMY_SIZE] using (hall e he).2

theorem tick_sublists (screenHeight : ℚ) (s : Game) :
    ((tick screenHeight s).bullets.map Entity.id).Sublist (s.bullets.map Entity.id) ∧
      ((tick screenHeight s).enemies.map Entity.id).Sublist (s.enemies.map Entity.id) := by
  have hsound := greedyFirstMatch_sound (movedBullets s.bullets)
    (filteredEnemies screenHeight (movedEnemies s.enemies))
  rw [← collisions_eq] at hsound
  obtain ⟨hb, he, _, _⟩ := hsound
  have hb2 := (hb.map Entity.id).trans (movedBullets_ids s.bullets)
  have he2 : ((collisions (movedBullets s.bullets)
      (filteredEnemies screenHeight (movedEnemies s.enemies))).remainingEnemies.map
        Entity.id).Sublist (s.enemies.map Entity.id) := by
    have h1 := (he.trans (List.filter_sublist _)).map Entity.id
    rwa [movedEnemies_ids] at h1
  unfold tick endGame
  dsimp only
  split_ifs
  all_goals
    first
    | exact ⟨hb2, he2⟩
    | exact ⟨List.Sublist.refl _, List.Sublist.refl _⟩
    | exact ⟨List.nil_sublist _, List.nil_sublist _⟩

theorem playerCollide_iff (screenHeight playerX : ℚ) (e : Entity) :
    playerCollide screenHeight playerX e = true ↔ strikesPlayer screenHeight 25 playerX e := by
  simp [playerCollide, strikesPlayer, PLAYER_WIDTH, PLAYER_HEIGHT, ENEMY_SIZE, and_assoc]

theorem tick_lone_meteor (screenHeight p x y : ℚ) (id : String) (sc : Nat) (g : Bool)
    (hy : y + 6 + 45 < screenHeight - 20) (hx : x + 45 ≤ p) :
    tick screenHeight
        { playerX := p, bullets := [], enemies := [{ id := id, x := x, y := y }], score := sc,
          gameOver := g } =
      { playerX := p, bullets := [], enemies := [{ id := id, x := x, y := y + 6 }], score := sc,
        gameOver := g } := by
  have h1 : ¬ (screenHeight - 20 ≤ y + 6 + 45) := not_le.2 hy
  have h2 : y + 6 < screenHeight + 45 := by linarith
  have h3 : ¬ (p < x + 45) := not_lt.2 hx
  simp [tick, movedBullets, movedEnemies, reachesGround, filteredEnemies, collisions,
    playerCollide, ENEMY_SIZE, PLAYER_WIDTH, PLAYER_HEIGHT, h1, h2, h3]

theorem tickPeriod_iterate_lone (screenHeight p x y : ℚ) (id : String) (sc : Nat) (g : Bool)
    (hx : x + 45 ≤ p) (k : Nat) (hy : y + 6 * (k : ℚ) + 45 < screenHeight - 20) :
    (tickPeriod screenHeight)^[k]
        { game := { playerX := p, bullets := [], enemies := [{ id := id, x := x, y := y }],
                    score := sc, gameOver := g },
          intervals := true } =
      { game := { playerX := p, bullets := [],
                  enemies := [{ id := id, x := x, y := y + 6 * (k : ℚ) }],
                  score := sc, gameOver := g },
        intervals := true } := by
  induction k with
  | zero => simp
  | succ k ih =>
    have hk : y + 6 * (k : ℚ) + 45 < screenHeight - 20 := by
      push_cast at hy
      linarith
    rw [Function.iterate_succ_apply', ih hk]
    have hstep := tick_lone_meteor screenHeight p x (y + 6 * (k : ℚ)) id sc g
      (by push_cast at hy; linarith) hx
    simp only [tickPeriod, if_true, hstep]
    push_cast
    ring_nf

/-! ## The claims -/

/-- C1: for a viewport at least as wide as the cannon, the cannon's x lies in
`[0, screenWidth - 60]` after every sequence of events from the initial state;
the initial x is `(screenWidth - 60) / 2`; a sensor sample `a` in a running
session replaces x by `max 0 (min (x + 20 * a) (screenWidth - 60))`; a tap on a
finished session recentres x; update periods, spawn periods and firing taps
leave x unchanged. -/
theorem playerX_within_viewport (screenWidth screenHeight : ℚ)
    (hw : PLAYER_WIDTH ≤ screenWidth) :
    (∀ events : List Event,
        0 ≤ (run screenWidth screenHeight events).playerX ∧
        (run screenWidth screenHeight events).playerX ≤ screenWidth - 60) ∧
    (initialGame screenWidth).playerX = (screenWidth - 60) / 2 ∧
    (0 ≤ (screenWidth - 60) / 2 ∧ (screenWidth - 60) / 2 ≤ screenWidth - 60) ∧
    (∀ (s : Game) (a : ℚ), s.gameOver = false →
        (onTilt screenWidth a s).playerX = max 0 (min (s.playerX + 20 * a) (screenWidth - 60)) ∧
        0 ≤ (onTilt screenWidth a s).playerX ∧
        (onTilt screenWidth a s).playerX ≤ screenWidth - 60) ∧
    (∀ (s : Game) (id : String), s.gameOver = true →
        (handlePress screenWidth screenHeight id s).playerX = (screenWidth - 60) / 2) ∧
    (∀ s : Game, (tick screenHeight s).playerX = s.playerX) ∧
    (∀ (s : Game) (id : String) (r : ℚ), (spawn screenWidth id r s).playerX = s.playerX) ∧
    (∀ (s : Game) (id : String), s.gameOver = false →
        (handlePress screenWidth screenHeight id s).playerX = s.playerX) := by
  have hc := centre_bounds screenWidth hw
  simp only [PLAYER_WIDTH] at hc hw
  refine ⟨?_, rfl, hc, ?_, ?_, tick_playerX screenHeight, ?_, ?_⟩
  · intro events
    have h := foldl_step_bounds screenWidth screenHeight (by simpa [PLAYER_WIDTH] using hw) events
      (initialGame screenWidth) (by simpa [initialGame, PLAYER_WIDTH] using hc)
    simpa [run, PLAYER_WIDTH] using h
  · intro s a hs
    have hb := clamp_bounds screenWidth (s.playerX + 20 * a) (by simpa [PLAYER_WIDTH] using hw)
    simp only [PLAYER_WIDTH] at hb
    have he : (onTilt screenWidth a s).playerX =
        max 0 (min (s.playerX + 20 * a) (screenWidth - 60)) := by
      simp [onTilt, hs, PLAYER_WIDTH, mul_comm]
    rw [he]
    exact ⟨rfl, hb⟩
  · intro s id hs
    simp [handlePress, hs, restartGame, PLAYER_WIDTH]
  · intro s id r
    rfl
  · intro s id hs
    simp [handlePress, hs]

/-- Witness for C1 on a 400 by 800 viewport: after two hard tilts to the right,
a shot, a spawn and an update period the cannon is still inside the viewport. -/
theorem playerX_within_viewport_witness :
    PLAYER_WIDTH ≤ (400 : ℚ) ∧
    0 ≤ (run 400 800 [Event.tilt 9, Event.tilt 9, Event.tap "f1", Event.spawn "m1" (1 / 2),
          Event.tick]).playerX ∧
    (run 400 800 [Event.tilt 9, Event.tilt 9, Event.tap "f1", Event.spawn "m1" (1 / 2),
          Event.tick]).playerX ≤ 400 - 60 :=
  ⟨by norm_num [PLAYER_WIDTH],
    (playerX_within_viewport 400 800 (by norm_num [PLAYER_WIDTH])).1 _⟩

/-- C2: in a running session, if some meteor moved down by 6 satisfies
`y + 45 ≥ screenHeight - 20`, the update period ends with the game over, both
collections empty, and the score and the cannon's x unchanged, whatever
fireballs are present; in particular for a meteor whose moved y is
`screenHeight - 20 - 45 + 1`. -/
theorem ground_check_ends_session (screenHeight : ℚ) (s : Game) (_hs : s.gameOver = false) :
    ((∃ e ∈ s.enemies, e.y + 6 + 45 ≥ screenHeight - 20) →
      tick screenHeight s =
        { playerX := s.playerX, bullets := [], enemies := [], score := s.score,
          gameOver := true }) ∧
    ((∃ e ∈ s.enemies, e.y + 6 = screenHeight - 20 - 45 + 1) →
      tick screenHeight s =
        { playerX := s.playerX, bullets := [], enemies := [], score := s.score,
          gameOver := true }) := by
  have key : (∃ e ∈ s.enemies, e.y + 6 + 45 ≥ screenHeight - 20) →
      tick screenHeight s =
        { playerX := s.playerX, bullets := [], enemies := [], score := s.score,
          gameOver := true } := by
    intro hg
    have ha := (any_reachesGround_iff screenHeight s.enemies).2 hg
    simp [tick, ha, endGame]
  refine ⟨key, ?_⟩
  rintro ⟨e, he, hy⟩
  exact key ⟨e, he, by linarith⟩

/-- Witness for C2: the meteor of `groundSample` is at 730, so moved to 736,
one pixel past `800 - 20 - 45`, while a fireball is in flight. -/
theorem ground_check_ends_session_witness :
    groundSample.gameOver = false ∧
    (∃ e ∈ groundSample.enemies, e.y + 6 = 800 - 20 - 45 + 1) ∧
    tick 800 groundSample =
      { playerX := 170, bullets := [], enemies := [], score := 3, gameOver := true } :=
  ⟨rfl, ⟨_, List.mem_singleton.2 rfl, by norm_num⟩,
    (ground_check_ends_session 800 groundSample rfl).2
      ⟨_, List.mem_singleton.2 rfl, by norm_num⟩⟩

/-- C3: the collision pass of an update period is greedy first match in list
order. It equals `greedyFirstMatch`; in each iteration the fireball is consumed
exactly when some meteor still in the working list overlaps it, and then the
earliest such meteor, and only it, is spliced out; surviving fireballs and
meteors keep their relative order, and as many meteors are removed as fireballs
are consumed. A fireball compared at (100, 100) with a meteor at (100, 110)
overlaps it and removes it, which scores one point. -/
theorem collisions_greedy_first_match (moved filtered : List Entity) :
    collisions moved filtered = greedyFirstMatch moved filtered ∧
    (∀ (acc : Scan) (b : Entity),
      ((∃ e ∈ acc.remainingEnemies, overlaps b e) →
        ∃ l₁ e l₂, acc.remainingEnemies = l₁ ++ e :: l₂ ∧ (∀ x ∈ l₁, ¬ overlaps b x) ∧
          overlaps b e ∧
          bulletStep acc b =
            { remainingBullets := acc.remainingBullets
              remainingEnemies := l₁ ++ l₂
              hits := acc.hits + 1 }) ∧
      ((¬ ∃ e ∈ acc.remainingEnemies, overlaps b e) →
        bulletStep acc b =
          { remainingBullets := acc.remainingBullets ++ [b]
            remainingEnemies := acc.remainingEnemies
            hits := acc.hits })) ∧
    (collisions moved filtered).remainingBullets.Sublist moved ∧
    (collisions moved filtered).remainingEnemies.Sublist filtered ∧
    moved.length =
      (collisions moved filtered).remainingBullets.length + (collisions moved filtered).hits ∧
    filtered.length =
      (collisions moved filtered).remainingEnemies.length + (collisions moved filtered).hits ∧
    overlaps { id := "f1", x := 100, y := 100 } { id := "m1", x := 100, y := 110 } ∧
    collisions [{ id := "f1", x := 100, y := 100 }] [{ id := "m1", x := 100, y := 110 }] =
      { remainingBullets := [], remainingEnemies := [], hits := 1 } ∧
    tick 800 hitSample =
      { playerX := 300, bullets := [], enemies := [], score := 1, gameOver := false } := by
  have hsound := greedyFirstMatch_sound moved filtered
  rw [← collisions_eq] at hsound
  refine ⟨collisions_eq moved filtered, ?_, hsound.1, hsound.2.1, hsound.2.2.1, hsound.2.2.2,
    ?_, ?_, ?_⟩
  · intro acc b
    constructor
    · rintro ⟨e, he, ho⟩
      cases hf : findHit b acc.remainingEnemies with
      | none =>
        have := findHit_eq_none.1 hf e he
        rw [(collide_iff_overlaps b e).2 ho] at this
        cases this
      | some i =>
        obtain ⟨l₁, e2, l₂, h1, _, h3, h4, h5⟩ := findHit_eq_some hf
        refine ⟨l₁, e2, l₂, h1, ?_, (collide_iff_overlaps b e2).1 h4, ?_⟩
        · intro x hx hox
          have := h3 x hx
          rw [(collide_iff_overlaps b x).2 hox] at this
          cases this
        · simp [bulletStep, hf, h5]
    · intro hno
      have hf : findHit b acc.remainingEnemies = none := by
        rw [findHit_eq_none]
        intro e he
        by_contra hc
        exact hno ⟨e, he, (collide_iff_overlaps b e).1 (by simpa using hc)⟩
      simp [bulletStep, hf]
  · norm_num [overlaps]
  · norm_num [collisions, bulletStep, findHit, collide, ENEMY_SIZE, BULLET_WIDTH, BULLET_HEIGHT]
  · norm_num [tick, hitSample, movedBullets, movedEnemies, reachesGround,
      filteredEnemies, collisions, bulletStep, findHit, collide, playerCollide, endGame,
      ENEMY_SIZE, BULLET_WIDTH, BULLET_HEIGHT, PLAYER_WIDTH, PLAYER_HEIGHT]

/-- C4: an update period of a running session never lowers the score. When it
ends the session the score is unchanged; when it commits, the score grows by
`hits`, which is both the number of moved fireballs that did not survive the
collision pass and the number of meteors that entered the pass and did not
survive it. -/
theorem tick_score_monotone (screenHeight : ℚ) (s : Game) (hs : s.gameOver = false) :
    s.score ≤ (tick screenHeight s).score ∧
    ((tick screenHeight s).gameOver = true → (tick screenHeight s).score = s.score) ∧
    ((tick screenHeight s).gameOver = false →
      (tick screenHeight s).score = s.score +
        (collisions (movedBullets s.bullets)
          (filteredEnemies screenHeight (movedEnemies s.enemies))).hits ∧
      (tick screenHeight s).bullets.length ≤ (movedBullets s.bullets).length ∧
      (collisions (movedBullets s.bullets)
          (filteredEnemies screenHeight (movedEnemies s.enemies))).hits =
        (movedBullets s.bullets).length - (tick screenHeight s).bullets.length ∧
      (tick screenHeight s).enemies.length ≤
        (filteredEnemies screenHeight (movedEnemies s.enemies)).length ∧
      (collisions (movedBullets s.bullets)
          (filteredEnemies screenHeight (movedEnemies s.enemies))).hits =
        (filteredEnemies screenHeight (movedEnemies s.enemies)).length -
          (tick screenHeight s).enemies.length) := by
  have hsound := greedyFirstMatch_sound (movedBullets s.bullets)
    (filteredEnemies screenHeight (movedEnemies s.enemies))
  rw [← collisions_eq] at hsound
  obtain ⟨_, _, hb, he⟩ := hsound
  by_cases hg : (movedEnemies s.enemies).any (reachesGround screenHeight) = true
  · simp [tick, hs, hg, endGame]
  · by_cases hp : (collisions (movedBullets s.bullets)
        (filteredEnemies screenHeight (movedEnemies s.enemies))).remainingEnemies.any
        (playerCollide screenHeight s.playerX) = true
    · simp [tick, hs, hg, hp, endGame]
    · have ht : tick screenHeight s =
          { s with
            bullets := (collisions (movedBullets s.bullets)
              (filteredEnemies screenHeight (movedEnemies s.enemies))).remainingBullets
            enemies := (collisions (movedBullets s.bullets)
              (filteredEnemies screenHeight (movedEnemies s.enemies))).remainingEnemies
            score := s.score + (collisions (movedBullets s.bullets)
              (filteredEnemies screenHeight (movedEnemies s.enemies))).hits } := by
        simp only [tick, hs, hg, hp]
        simp only [Bool.false_eq_true, if_false]
        congr 1
        split_ifs with h0
        · rfl
        · omega
      rw [ht]
      refine ⟨Nat.le_add_right _ _, ?_, ?_⟩
      · intro h; simp [hs] at h
      · intro _
        refine ⟨rfl, ?_, ?_, ?_, ?_⟩ <;> simp only <;> omega

/-- Witness for C4: in `hitSample` the fireball meets the meteor, so the update
period commits and the score goes from 0 to 1. -/
theorem tick_score_monotone_witness :
    hitSample.gameOver = false ∧ hitSample.score ≤ (tick 800 hitSample).score :=
  ⟨rfl, (tick_score_monotone 800 hitSample rfl).1⟩

/-- C5: a tap on a finished session yields the one canonical running state,
with no fireball, no meteor, score 0, the flag cleared and the cannon at
`(screenWidth - 60) / 2`, whatever the session held before; two finished
sessions therefore give the same state after a tap. -/
theorem tap_on_finished_is_canonical (screenWidth screenHeight : ℚ) (id : String) (s : Game)
    (hs : s.gameOver = true) :
    handlePress screenWidth screenHeight id s =
      { playerX := (screenWidth - 60) / 2, bullets := [], enemies := [], score := 0,
        gameOver := false } ∧
    (∀ (s2 : Game) (id2 : String), s2.gameOver = true →
      handlePress screenWidth screenHeight id2 s2 = handlePress screenWidth screenHeight id s) := by
  constructor
  · simp [handlePress, hs, restartGame, PLAYER_WIDTH]
  · intro s2 id2 hs2
    simp [handlePress, hs, hs2, restartGame]

/-- Witness for C5: `finishedSample` has score 7 and the cannon at 12; after a
tap on a 400-pixel-wide viewport the score is 0 and the cannon is at 170. -/
theorem tap_on_finished_is_canonical_witness :
    finishedSample.gameOver = true ∧
    handlePress 400 800 "f9" finishedSample =
      { playerX := (400 - 60) / 2, bullets := [], enemies := [], score := 0,
        gameOver := false } :=
  ⟨rfl, (tap_on_finished_is_canonical 400 800 "f9" finishedSample rfl).1⟩

/-- C6: a tap on a running session with the cannon at `p` appends exactly one
fireball at the end of the collection, at `x = p + 60 / 2 - 12 / 2 = p + 24`
and `y = screenHeight - 30 - 40`, and changes nothing else; with `p = 50` the
new fireball is at `x = 50 + 60 / 2 - 12 / 2`. -/
theorem tap_on_running_appends_fireball (screenWidth screenHeight : ℚ) (id : String) (s : Game)
    (hs : s.gameOver = false) :
    (handlePress screenWidth screenHeight id s).bullets =
      s.bullets ++ [{ id := id, x := s.playerX + 60 / 2 - 12 / 2, y := screenHeight - 30 - 40 }] ∧
    s.playerX + 60 / 2 - 12 / 2 = s.playerX + 24 ∧
    (handlePress screenWidth screenHeight id s).enemies = s.enemies ∧
    (handlePress screenWidth screenHeight id s).score = s.score ∧
    (handlePress screenWidth screenHeight id s).playerX = s.playerX ∧
    (handlePress screenWidth screenHeight id s).gameOver = false ∧
    (s.playerX = 50 →
      (handlePress screenWidth screenHeight id s).bullets =
        s.bullets ++ [{ id := id, x := 50 + 60 / 2 - 12 / 2, y := screenHeight - 30 - 40 }]) := by
  have hb : (handlePress screenWidth screenHeight id s).bullets =
      s.bullets ++ [{ id := id, x := s.playerX + 60 / 2 - 12 / 2, y := screenHeight - 30 - 40 }] := by
    simp [handlePress, hs, PLAYER_WIDTH, PLAYER_HEIGHT, BULLET_WIDTH]
  refine ⟨hb, by ring, ?_, ?_, ?_, ?_, ?_⟩
  · simp [handlePress, hs]
  · simp [handlePress, hs]
  · simp [handlePress, hs]
  · simp [handlePress, hs]
  · intro hp
    rw [hb, hp]

/-- Witness for C6: `firingSample` has the cannon at 50 and one fireball; the
tap adds a second one at x = 74, y = 730. -/
theorem tap_on_running_appends_fireball_witness :
    firingSample.gameOver = false ∧
    (handlePress 400 800 "f2" firingSample).bullets =
      [{ id := "f1", x := 74, y := 500 },
       { id := "f2", x := 50 + 60 / 2 - 12 / 2, y := 800 - 30 - 40 }] :=
  ⟨rfl, (tap_on_running_appends_fireball 400 800 "f2" firingSample rfl).1⟩

/-- C7: an update period keeps identifiers distinct. If no fireball identifier
and no meteor identifier occurs twice before the update period, none occurs
twice after it, because the identifier lists after it are order-preserving
sub-lists of the identifier lists before it. -/
theorem tick_keeps_ids_distinct (screenHeight : ℚ) (s : Game)
    (hb : (s.bullets.map Entity.id).Nodup) (he : (s.enemies.map Entity.id).Nodup) :
    ((tick screenHeight s).bullets.map Entity.id).Nodup ∧
    ((tick screenHeight s).enemies.map Entity.id).Nodup ∧
    ((tick screenHeight s).bullets.map Entity.id).Sublist (s.bullets.map Entity.id) ∧
    ((tick screenHeight s).enemies.map Entity.id).Sublist (s.enemies.map Entity.id) ∧
    ((tick screenHeight s).gameOver = true → s.gameOver = false →
      (tick screenHeight s).bullets = [] ∧ (tick screenHeight s).enemies = []) := by
  obtain ⟨h1, h2⟩ := tick_sublists screenHeight s
  refine ⟨hb.sublist h1, he.sublist h2, h1, h2, ?_⟩
  intro ht hs
  revert ht
  simp only [tick, endGame]
  split_ifs <;> simp [hs]

/-- Witness for C7: `crowdSample` holds three fireballs and three meteors with
distinct identifiers; after the update period two fireballs and two meteors
are left, and their identifiers are still distinct. -/
theorem tick_keeps_ids_distinct_witness :
    (crowdSample.bullets.map Entity.id).Nodup ∧ (crowdSample.enemies.map Entity.id).Nodup ∧
    (tick 800 crowdSample).bullets.map Entity.id = ["f2", "f3"] ∧
    (tick 800 crowdSample).enemies.map Entity.id = ["m1", "m3"] ∧
    ((tick 800 crowdSample).bullets.map Entity.id).Nodup ∧
    ((tick 800 crowdSample).enemies.map Entity.id).Nodup :=
  ⟨by simp [crowdSample], by simp [crowdSample],
    by norm_num [tick, crowdSample, movedBullets, movedEnemies, reachesGround,
      filteredEnemies, collisions, bulletStep, findHit, collide, playerCollide, endGame,
      ENEMY_SIZE, BULLET_WIDTH, BULLET_HEIGHT, PLAYER_WIDTH, PLAYER_HEIGHT],
    by norm_num [tick, crowdSample, movedBullets, movedEnemies, reachesGround,
      filteredEnemies, collisions, bulletStep, findHit, collide, playerCollide, endGame,
      ENEMY_SIZE, BULLET_WIDTH, BULLET_HEIGHT, PLAYER_WIDTH, PLAYER_HEIGHT],
    (tick_keeps_ids_distinct 800 crowdSample (by simp [crowdSample])
      (by simp [crowdSample])).1,
    (tick_keeps_ids_distinct 800 crowdSample (by simp [crowdSample])
      (by simp [crowdSample])).2.1⟩

/-- C8 is broken by the code in the window between the update period that ends
a session and the next run of the effects. On a 400 by 800 viewport, a meteor
spawned at x = 0 and moved by 130 update periods ends the session, both
intervals still existing; the spawn callback, which has no test of `gameOver`,
then appends a meteor to the finished session, and the update callback moves
that meteor. Once the effects have run again, spawn and update periods leave
the finished session as it is. -/
theorem spawn_callback_changes_finished_session :
    (tickPeriod 800)^[130] (spawnPeriod 400 "m1" 0 (mount 400)) = windowSample ∧
    windowSample.game.gameOver = true ∧
    spawnPeriod 400 "m2" (1 / 2) windowSample =
      { game := { playerX := 170, bullets := [],
                  enemies := [{ id := "m2", x := 355 / 2, y := -45 }],
                  score := 0, gameOver := true },
        intervals := true } ∧
    tickPeriod 800 (spawnPeriod 400 "m2" (1 / 2) windowSample) =
      { game := { playerX := 170, bullets := [],
                  enemies := [{ id := "m2", x := 355 / 2, y := -39 }],
                  score := 0, gameOver := true },
        intervals := true } ∧
    spawnPeriod 400 "m2" (1 / 2) (runEffects windowSample) = runEffects windowSample ∧
    tickPeriod 800 (runEffects windowSample) = runEffects windowSample := by
  refine ⟨?_, rfl, ?_, ?_, rfl, rfl⟩
  · have hstart : spawnPeriod 400 "m1" 0 (mount 400) =
        { game := { playerX := 170, bullets := [],
                    enemies := [{ id := "m1", x := 0, y := -45 }],
                    score := 0, gameOver := false },
          intervals := true } := by
      norm_num [spawnPeriod, mount, spawn, initialGame, PLAYER_WIDTH, ENEMY_SIZE]
    have hrun := tickPeriod_iterate_lone 800 170 0 (-45) "m1" 0 false (by norm_num) 129
      (by norm_num)
    rw [show (130 : ℕ) = 129 + 1 from rfl, Function.iterate_succ_apply', hstart, hrun]
    norm_num [tickPeriod, windowSample, endedSample, tick, movedBullets, movedEnemies,
      reachesGround, endGame, ENEMY_SIZE]
  · norm_num [spawnPeriod, windowSample, endedSample, spawn, ENEMY_SIZE]
  · norm_num [spawnPeriod, tickPeriod, windowSample, endedSample, spawn, tick, movedBullets,
      movedEnemies, reachesGround, filteredEnemies, collisions, playerCollide, endGame,
      ENEMY_SIZE, PLAYER_WIDTH, PLAYER_HEIGHT]

/-- C9 as stated fails: in `strikeSample` on an 800-pixel-high viewport no
meteor reaches the ground, the only survivor of the collision pass has its
bottom edge at 748, which is not past the line `800 - 30 - 20 = 750` drawn with
the margin of the ground check, and yet the update period ends the session. -/
theorem player_line_counterexample :
    strikeSample.gameOver = false ∧
    (movedEnemies strikeSample.enemies).any (reachesGround 800) = false ∧
    (collisions (movedBullets strikeSample.bullets)
      (filteredEnemies 800 (movedEnemies strikeSample.enemies))).remainingEnemies =
        [{ id := "m1", x := 100, y := 703 }] ∧
    ¬ strikesPlayer 800 groundMargin strikeSample.playerX { id := "m1", x := 100, y := 703 } ∧
    tick 800 strikeSample =
      { playerX := 100, bullets := [], enemies := [], score := 0, gameOver := true } := by
  refine ⟨rfl, ?_, ?_, ?_, ?_⟩
  · norm_num [strikeSample, movedEnemies, reachesGround, ENEMY_SIZE]
  · norm_num [strikeSample, movedEnemies, movedBullets, filteredEnemies, collisions, ENEMY_SIZE]
  · norm_num [strikesPlayer, groundMargin, strikeSample]
  · norm_num [tick, strikeSample, movedBullets, movedEnemies, reachesGround,
      filteredEnemies, collisions, playerCollide, endGame,
      ENEMY_SIZE, PLAYER_WIDTH, PLAYER_HEIGHT]

/-- C9 amended: in a running session where no moved meteor reaches the ground,
the update period ends the session, clearing both collections, exactly when
some survivor of the collision pass overlaps the cannon horizontally and has its
bottom edge past the line `screenHeight - 30 - 25`; otherwise it commits the
survivors. The offset 25 of that line is not the margin 20 of the ground check. -/
theorem player_line_uses_offset_25 (screenHeight : ℚ) (s : Game) (hs : s.gameOver = false)
    (hg : ¬ ∃ e ∈ s.enemies, e.y + 6 + 45 ≥ screenHeight - 20) :
    ((∃ e ∈ (collisions (movedBullets s.bullets)
          (filteredEnemies screenHeight (movedEnemies s.enemies))).remainingEnemies,
        strikesPlayer screenHeight 25 s.playerX e) ↔
      (tick screenHeight s).gameOver = true) ∧
    ((tick screenHeight s).gameOver = true →
      tick screenHeight s =
        { playerX := s.playerX, bullets := [], enemies := [], score := s.score,
          gameOver := true }) ∧
    ((tick screenHeight s).gameOver = false →
      (tick screenHeight s).enemies =
        (collisions (movedBullets s.bullets)
          (filteredEnemies screenHeight (movedEnemies s.enemies))).remainingEnemies) ∧
    groundMargin = 20 ∧ (25 : ℚ) ≠ groundMargin := by
  have hg2 : (movedEnemies s.enemies).any (reachesGround screenHeight) = false := by
    by_contra hc
    exact hg ((any_reachesGround_iff screenHeight s.enemies).1 (by simpa using hc))
  have hany : (collisions (movedBullets s.bullets)
        (filteredEnemies screenHeight (movedEnemies s.enemies))).remainingEnemies.any
        (playerCollide screenHeight s.playerX) = true ↔
      ∃ e ∈ (collisions (movedBullets s.bullets)
          (filteredEnemies screenHeight (movedEnemies s.enemies))).remainingEnemies,
        strikesPlayer screenHeight 25 s.playerX e := by
    rw [List.any_eq_true]
    constructor
    · rintro ⟨e, he, hc⟩
      exact ⟨e, he, (playerCollide_iff _ _ e).1 hc⟩
    · rintro ⟨e, he, hc⟩
      exact ⟨e, he, (playerCollide_iff _ _ e).2 hc⟩
  by_cases hp : (collisions (movedBullets s.bullets)
        (filteredEnemies screenHeight (movedEnemies s.enemies))).remainingEnemies.any
        (playerCollide screenHeight s.playerX) = true
  · have ht : tick screenHeight s =
        { playerX := s.playerX, bullets := [], enemies := [], score := s.score,
          gameOver := true } := by
      simp [tick, hs, hg2, hp, endGame]
    refine ⟨⟨fun _ => by rw [ht], fun _ => hany.1 hp⟩, fun _ => ht, ?_, rfl, ?_⟩
    · intro h; rw [ht] at h; cases h
    · norm_num [groundMargin]
  · have ht : (tick screenHeight s).gameOver = false ∧
        (tick screenHeight s).enemies =
          (collisions (movedBullets s.bullets)
            (filteredEnemies screenHeight (movedEnemies s.enemies))).remainingEnemies := by
      simp [tick, hs, hg2, hp]
    refine ⟨⟨fun h => absurd (hany.2 h) hp, fun h => ?_⟩, fun h => ?_, fun _ => ht.2, rfl, ?_⟩
    · rw [ht.1] at h; cases h
    · rw [ht.1] at h; cases h
    · norm_num [groundMargin]

/-- Witness for C9 amended: `strikeSample` is running, no meteor of it reaches
the ground of an 800-pixel-high viewport, and its update period ends the
session. -/
theorem player_line_uses_offset_25_witness :
    strikeSample.gameOver = false ∧
    (¬ ∃ e ∈ strikeSample.enemies, e.y + 6 + 45 ≥ (800 : ℚ) - 20) ∧
    ((∃ e ∈ (collisions (movedBullets strikeSample.bullets)
          (filteredEnemies 800 (movedEnemies strikeSample.enemies))).remainingEnemies,
        strikesPlayer 800 25 strikeSample.playerX e) ↔
      (tick 800 strikeSample).gameOver = true) :=
  ⟨rfl, by norm_num [strikeSample],
    (player_line_uses_offset_25 800 strikeSample rfl (by norm_num [strikeSample])).1⟩

/-- C10: the off-screen filter removes nothing. Once the ground check has let
the update period through, every moved meteor has `y + 45 < screenHeight - 20`,
hence `y < screenHeight + 45`, so the filtered list is the moved list and the
update period equals the one with the filter deleted; when it commits, the
surviving meteors are moved meteors in their order and the missing ones are as
many as the hits. -/
theorem offscreen_filter_removes_nothing (screenHeight : ℚ) (s : Game) :
    tick screenHeight s = tickNoFilter screenHeight s ∧
    ((movedEnemies s.enemies).any (reachesGround screenHeight) = false →
      (∀ e ∈ movedEnemies s.enemies, e.y + 45 < screenHeight - 20 ∧ e.y < screenHeight + 45) ∧
      filteredEnemies screenHeight (movedEnemies s.enemies) = movedEnemies s.enemies) ∧
    (s.gameOver = false → (tick screenHeight s).gameOver = false →
      (tick screenHeight s).enemies.Sublist (movedEnemies s.enemies) ∧
      s.enemies.length = (tick screenHeight s).enemies.length +
        (collisions (movedBullets s.bullets) (movedEnemies s.enemies)).hits) := by
  have hfilter := filteredEnemies_of_not_ground screenHeight (movedEnemies s.enemies)
  have heq : tick screenHeight s = tickNoFilter screenHeight s := by
    unfold tick tickNoFilter
    by_cases hg : (movedEnemies s.enemies).any (reachesGround screenHeight) = true
    · simp [hg]
    · have hg2 : (movedEnemies s.enemies).any (reachesGround screenHeight) = false := by
        simpa using hg
      simp only [(hfilter hg2).2]
  refine ⟨heq, hfilter, ?_⟩
  intro hs ht
  rw [heq] at ht ⊢
  have hsound := greedyFirstMatch_sound (movedBullets s.bullets) (movedEnemies s.enemies)
  rw [← collisions_eq] at hsound
  obtain ⟨_, hsub, _, hlen⟩ := hsound
  have hlen2 : s.enemies.length = (movedEnemies s.enemies).length := by simp [movedEnemies]
  revert ht
  simp only [tickNoFilter, endGame]
  split_ifs
  all_goals
    first
    | exact fun _ => ⟨hsub, by rw [hlen2]; exact hlen⟩
    | exact fun h => False.elim h

end TiltFire
